import Mathlib

/-!
Verification development for the path-jail Python binding (src/lib.rs).

Paths are modelled as lists of characters (`PStr`); component sequences of
absolute paths as `List PStr`.  The binding layer (argument extraction,
error translation, cosmetic normalization, the pipeline of each exposed
operation) is embedded directly from src/lib.rs.  The core resolver lives
in the external path-jail crate, whose code is not part of this repository;
those parts are modelled from the specification and marked as such.
-/

namespace PathJail

/-- Character-list model of a Rust / Python string holding a path. -/
abbrev PStr := List Char

/-- Kinds of Python exceptions raised by the binding (PyValueError,
PyIOError, PyTypeError in src/lib.rs). -/
inductive PyKind
  | valueError
  | ioError
  | typeError
deriving DecidableEq, Repr

/-- A raised Python exception: its type and its message. -/
structure PyErr where
  kind : PyKind
  msg : String
deriving DecidableEq, Repr

/-- The closed error sum type of the path-jail core (matched on by
`to_py_err` in src/lib.rs lines 93-111): EscapedRoot with the attempted
path and the root, BrokenSymlink with the offending path, InvalidPath with
a reason, Io with the underlying message. -/
inductive JailError
  | escapedRoot (attempted root : List PStr)
  | brokenSymlink (path : List PStr)
  | invalidPath (reason : String)
  | io (msg : String)
deriving DecidableEq, Repr

/-- Render a relative component sequence as a string with slash
separators (empty for the empty sequence). -/
def renderRel : List PStr → PStr
  | [] => []
  | [c] => c
  | c :: c₂ :: rest => c ++ '/' :: renderRel (c₂ :: rest)

/-- Render an absolute component sequence as a string with a leading
slash. -/
def renderAbs (ps : List PStr) : PStr :=
  '/' :: renderRel ps

/-- Whether a path string contains an embedded null character. -/
def hasNull (s : PStr) : Bool :=
  decide (Char.ofNat 0 ∈ s)

/-- The ValueError raised by `extract_path` for a null byte
(src/lib.rs line 66). -/
def nullByteErr : PyErr :=
  ⟨.valueError, "path contains null byte (security risk)"⟩

/-- The TypeError raised by `extract_path` for a non-path argument
(src/lib.rs line 89). -/
def typeErr : PyErr :=
  ⟨.typeError, "expected str or os.PathLike object"⟩

/-- Model of the Python argument values `extract_path` can receive: a
str, a bytes object, an os.PathLike object together with the value its
fspath method returns, an object whose fspath method raises, or anything
else. -/
inductive PyObj
  | pyStr (s : PStr)
  | pyBytes (b : List Nat)
  | pathLike (fspathResult : PyObj)
  | fspathRaises
  | other
deriving DecidableEq, Repr

/-- The inner helper of `extract_path` (src/lib.rs lines 64-71): reject a
string containing a null byte, otherwise accept it as the path. -/
def validate_path (s : PStr) : Except PyErr PStr :=
  if hasNull s then .error nullByteErr else .ok s

/-- `extract_path` from src/lib.rs lines 62-90: accept a str, or an
os.PathLike object whose fspath method returns a str, validating for null
bytes; everything else (bytes, fspath returning non-str, fspath raising,
other objects) gets the TypeError. -/
def extract_path : PyObj → Except PyErr PStr
  | .pyStr s => validate_path s
  | .pathLike (.pyStr s) => validate_path s
  | _ => .error typeErr

/-- `to_py_err` from src/lib.rs lines 93-111: EscapedRoot, BrokenSymlink
and InvalidPath become ValueError; Io becomes IOError. -/
def to_py_err : JailError → PyErr
  | .escapedRoot attempted root =>
      ⟨.valueError, "path " ++ String.mk (renderAbs attempted) ++
        " escapes jail root " ++ String.mk (renderAbs root)⟩
  | .brokenSymlink p =>
      ⟨.valueError, "broken symlink at " ++ String.mk (renderAbs p) ++
        " (cannot verify target)"⟩
  | .invalidPath reason => ⟨.valueError, "invalid path: " ++ reason⟩
  | .io e => ⟨.ioError, e⟩

/-- `normalize_path` from src/lib.rs lines 24-49 as compiled on
non-Windows targets: the cfg(windows) block is absent and the input is
returned unchanged. -/
def normalize_path (s : PStr) : PStr := s

/-- The pipeline shared by the unary path methods `join`, `contains` and
`relative` (src/lib.rs lines 156-201): extract the argument, run the core
operation, then map the success value through normalization and string
conversion, and any core error through `to_py_err`. -/
def pyOp1 (core : PStr → Except JailError PStr) (norm : PStr → PStr)
    (obj : PyObj) : Except PyErr PStr :=
  match extract_path obj with
  | .error e => .error e
  | .ok s =>
    match core s with
    | .ok p => .ok (norm p)
    | .error e => .error (to_py_err e)

/-- The pipeline of the constructor `Jail::new` (src/lib.rs lines
133-138): extract the argument, then run the core constructor. -/
def pyOpNew (core : PStr → Except JailError (List PStr)) (obj : PyObj) :
    Except PyErr (List PStr) :=
  match extract_path obj with
  | .error e => .error e
  | .ok s =>
    match core s with
    | .ok r => .ok r
    | .error e => .error (to_py_err e)

/-- The pipeline of the stateless module-level `join` (src/lib.rs lines
237-245): extract the root argument, then the path argument, then run the
core one-shot join, mapping success through normalization and errors
through `to_py_err`. -/
def pyOp2 (core : PStr → PStr → Except JailError PStr)
    (norm : PStr → PStr) (robj pobj : PyObj) : Except PyErr PStr :=
  match extract_path robj with
  | .error e => .error e
  | .ok r =>
    match extract_path pobj with
    | .error e => .error e
    | .ok p =>
      match core r p with
      | .ok q => .ok (norm q)
      | .error e => .error (to_py_err e)

/-! The core resolver.  The path-jail core crate is not part of this
repository (src/lib.rs only calls it), so the definitions below are
modelled from the specification (sections 3, 4.1-4.6 of spec.md). -/

/-- Modelled from the spec: a filesystem entry as the core resolver
observes it — a directory, a regular file, or a symbolic link carrying a
literal target (absolute or relative, as a component sequence that may
contain dot and dot-dot components). -/
inductive Entry
  | dir
  | file
  | symlink (absTarget : Bool) (target : List PStr)
deriving DecidableEq, Repr

/-- A finite snapshot of the filesystem: absolute component sequences
paired with the entry found there. -/
abbrev Fs := List (List PStr × Entry)

/-- Look an absolute component sequence up in the filesystem snapshot. -/
def fsFind : Fs → List PStr → Option Entry
  | [], _ => none
  | (q, e) :: rest, p => if q = p then some e else fsFind rest p

/-- Modelled from the spec (4.2 step 3a and design note on dot-dot):
append one untrusted component to a resolved-so-far absolute path; a dot
component is a no-op, a dot-dot component removes the last resolved
component, any other component is pushed. -/
def stepComp (acc : List PStr) (c : PStr) : List PStr :=
  if c = ['.'] then acc
  else if c = ['.', '.'] then acc.dropLast
  else acc ++ [c]

/-- Apply a sequence of components to a base path, one `stepComp` at a
time. -/
def applyComps (base : List PStr) (cs : List PStr) : List PStr :=
  cs.foldl stepComp base

/-- Modelled from the spec (4.2 step 3b): the path a symlink target
denotes at face value — resolved against the symlink's parent directory
when relative, taken from the filesystem root when absolute. -/
def faceValue (parent : List PStr) (absTarget : Bool) (target : List PStr) :
    List PStr :=
  applyComps (if absTarget then [] else parent) target

/-- Modelled from the spec (4.2 step 3b): the bound on symlink follows
across one whole walk. -/
def followLimit : Nat := 40

/-- Modelled from the spec (4.2 steps 3b-3d): resolve the symlink chain at
a candidate resolved-so-far path.  Every intermediate resolved path is
checked to keep the canonical root's component sequence as a component
prefix (EscapedRoot otherwise).  An existing symlink is read and replaced
by its face-value target while the follow budget lasts (InvalidPath when
exhausted); a broken symlink is permitted unresolved only as the last
input component and only when its literal target stays inside root,
otherwise BrokenSymlink.  Returns the resolved path and the remaining
follow budget. -/
def chase (fs : Fs) (root : List PStr) :
    Nat → List PStr → Bool → Except JailError (List PStr × Nat)
  | 0, p, _ =>
    if root <+: p then
      match fsFind fs p with
      | some (.symlink _ _) =>
          .error (.invalidPath "too many levels of symbolic links")
      | _ => .ok (p, 0)
    else .error (.escapedRoot p root)
  | fuel + 1, p, isLast =>
    if root <+: p then
      match fsFind fs p with
      | some (.symlink absT tgt) =>
        match fsFind fs (faceValue p.dropLast absT tgt) with
        | none =>
          if isLast = true ∧ root <+: faceValue p.dropLast absT tgt then
            .ok (p, fuel)
          else .error (.brokenSymlink p)
        | some _ => chase fs root fuel (faceValue p.dropLast absT tgt) isLast
      | _ => .ok (p, fuel + 1)
    else .error (.escapedRoot p root)

/-- Modelled from the spec (4.2 steps 2-4): walk the untrusted components
in order from the resolved-so-far path, chasing symlinks and checking
containment after every step; components beyond the last existing
ancestor are appended literally and still checked. -/
def walkComps (fs : Fs) (root : List PStr) :
    List PStr → List PStr → Nat → Except JailError (List PStr)
  | resolved, [], _ => .ok resolved
  | resolved, c :: rest, fuel =>
    match chase fs root fuel (stepComp resolved c) rest.isEmpty with
    | .error e => .error e
    | .ok (p, fuel') => walkComps fs root p rest fuel'

/-- Split a path string at slash characters (groups may be empty). -/
def splitSlash : PStr → List PStr
  | [] => [[]]
  | c :: rest =>
    if c = '/' then [] :: splitSlash rest
    else
      match splitSlash rest with
      | [] => [[c]]
      | g :: gs => (c :: g) :: gs

/-- Modelled from the spec (4.2 step 2): the ordered components of a path
string — slash-separated groups with empty groups discarded. -/
def pathComps (s : PStr) : List PStr :=
  (splitSlash s).filter (fun g => !g.isEmpty)

/-- Whether a path string is absolute (begins with a slash). -/
def isAbsPath : PStr → Bool
  | [] => false
  | c :: _ => decide (c = '/')

/-- Modelled from the spec (4.2 step 1 and 4.3): the core join — reject
empty, null-byte-containing and absolute input with InvalidPath, then walk
the components from the canonical root. -/
def coreJoin (fs : Fs) (root : List PStr) (s : PStr) :
    Except JailError (List PStr) :=
  if s.isEmpty then .error (.invalidPath "path is empty")
  else if hasNull s then .error (.invalidPath "path contains null byte")
  else if isAbsPath s then .error (.invalidPath "path must be relative")
  else walkComps fs root root (pathComps s) followLimit

/-- Modelled from the spec (4.4, full canonicalization): resolve the
symlink chain at an existing path, failing Io when the path is missing and
InvalidPath when the follow budget is exhausted. -/
def chaseFull (fs : Fs) : Nat → List PStr → Except JailError (List PStr)
  | 0, p =>
    match fsFind fs p with
    | some (.symlink _ _) =>
        .error (.invalidPath "too many levels of symbolic links")
    | some _ => .ok p
    | none => .error (.io "No such file or directory")
  | fuel + 1, p =>
    match fsFind fs p with
    | none => .error (.io "No such file or directory")
    | some (.symlink absT tgt) =>
        chaseFull fs fuel (faceValue p.dropLast absT tgt)
    | some _ => .ok p

/-- Modelled from the spec (4.4): canonicalize a path whose every
component is expected to exist, resolving each component's symlinks in
order. -/
def canonicalize (fs : Fs) : List PStr → List PStr → Except JailError (List PStr)
  | acc, [] => .ok acc
  | acc, c :: rest =>
    match chaseFull fs followLimit (stepComp acc c) with
    | .error e => .error e
    | .ok p => canonicalize fs p rest

/-- Modelled from the spec (4.4): the core containment check — the input
must be a well-formed absolute path, is canonicalized fully, and must have
the canonical root's components as a prefix (EscapedRoot otherwise). -/
def coreContains (fs : Fs) (root : List PStr) (s : PStr) :
    Except JailError (List PStr) :=
  if s.isEmpty then .error (.invalidPath "path is empty")
  else if hasNull s then .error (.invalidPath "path contains null byte")
  else if !isAbsPath s then .error (.invalidPath "path must be absolute")
  else
    match canonicalize fs [] (pathComps s) with
    | .error e => .error e
    | .ok c => if root <+: c then .ok c else .error (.escapedRoot c root)

/-- Modelled from the spec (4.5): derive the root-relative path by
delegating to the containment check and stripping the root's component
prefix. -/
def coreRelative (fs : Fs) (root : List PStr) (s : PStr) :
    Except JailError (List PStr) :=
  match coreContains fs root s with
  | .error e => .error e
  | .ok c => .ok (c.drop root.length)

/-- Modelled from the spec (4.1): the root resolver — reject malformed
input with InvalidPath, canonicalize the root fully (Io when missing), and
require the result to be a directory. -/
def coreNew (fs : Fs) (s : PStr) : Except JailError (List PStr) :=
  if s.isEmpty then .error (.invalidPath "path is empty")
  else if hasNull s then .error (.invalidPath "path contains null byte")
  else
    match canonicalize fs [] (pathComps s) with
    | .error e => .error e
    | .ok c =>
      match fsFind fs c with
      | some .dir => .ok c
      | _ => .error (.io "Not a directory")

/-- The core join with its success value rendered as a string, as the
binding receives it. -/
def coreJoinRendered (fs : Fs) (root : List PStr) (s : PStr) :
    Except JailError PStr :=
  (coreJoin fs root s).map renderAbs

/-- The core containment check with its success value rendered as a
string. -/
def coreContainsRendered (fs : Fs) (root : List PStr) (s : PStr) :
    Except JailError PStr :=
  (coreContains fs root s).map renderAbs

/-- The core relative derivation with its success value rendered as a
string. -/
def coreRelativeRendered (fs : Fs) (root : List PStr) (s : PStr) :
    Except JailError PStr :=
  (coreRelative fs root s).map renderRel

/-- Modelled from the spec (4.6): the stateless one-shot core join,
combining root construction (4.1) and join (4.3). -/
def coreStateless (fs : Fs) (r p : PStr) : Except JailError PStr :=
  match coreNew fs r with
  | .error e => .error e
  | .ok root => coreJoinRendered fs root p

/-- `Jail::join` at the Python boundary (src/lib.rs lines 156-163). -/
def pyJoin (fs : Fs) (root : List PStr) (obj : PyObj) : Except PyErr PStr :=
  pyOp1 (coreJoinRendered fs root) normalize_path obj

/-- `Jail::contains` at the Python boundary (src/lib.rs lines 175-182). -/
def pyContains (fs : Fs) (root : List PStr) (obj : PyObj) :
    Except PyErr PStr :=
  pyOp1 (coreContainsRendered fs root) normalize_path obj

/-- `Jail::relative` at the Python boundary (src/lib.rs lines 194-201). -/
def pyRelative (fs : Fs) (root : List PStr) (obj : PyObj) :
    Except PyErr PStr :=
  pyOp1 (coreRelativeRendered fs root) normalize_path obj

/-- `Jail::new` at the Python boundary (src/lib.rs lines 133-138). -/
def pyNew (fs : Fs) (obj : PyObj) : Except PyErr (List PStr) :=
  pyOpNew (coreNew fs) obj

/-- The stateless module-level `join` at the Python boundary (src/lib.rs
lines 237-245). -/
def pyStatelessJoin (fs : Fs) (robj pobj : PyObj) : Except PyErr PStr :=
  pyOp2 (coreStateless fs) normalize_path robj pobj

/-- The two-step composite the stateless join claims to match:
construct the jail, then call its join. -/
def pyTwoStep (fs : Fs) (robj pobj : PyObj) : Except PyErr PStr :=
  match pyNew fs robj with
  | .error e => .error e
  | .ok root => pyJoin fs root pobj

/-- The string value carried by a Python argument that `extract_path`
treats as a path: a str, or a PathLike whose fspath returns a str. -/
def strVal : PyObj → Option PStr
  | .pyStr s => some s
  | .pathLike (.pyStr s) => some s
  | _ => none

/-- Whether `extract_path` can obtain a string from the argument at all. -/
def isStrConvertible (obj : PyObj) : Bool :=
  (strVal obj).isSome

/-! The Windows build of `normalize_path` (src/lib.rs lines 11-49). -/

/-- `LONG_PATH_THRESHOLD` from src/lib.rs line 12. -/
def LONG_PATH_THRESHOLD : Nat := 250

/-- The UTF-8 byte size of one character, as Rust's str len counts it. -/
def charBytes (c : Char) : Nat :=
  if c.toNat < 0x80 then 1
  else if c.toNat < 0x800 then 2
  else if c.toNat < 0x10000 then 3
  else 4

/-- The UTF-8 byte length of a string, as Rust's str len counts it. -/
def byteLen (s : PStr) : Nat :=
  (s.map charBytes).sum

/-- The verbatim UNC marker the Windows branch strips first. -/
def uncMarker : PStr := "\\\\?\\UNC\\".toList

/-- The extended-length marker the Windows branch strips second. -/
def extMarker : PStr := "\\\\?\\".toList

/-- `normalize_path` from src/lib.rs lines 24-49 as compiled on Windows:
an extended-length UNC path becomes a conventional UNC path and any other
extended-length path loses its marker, except that when the converted form
is longer than the threshold the original is kept; anything else is
returned unchanged. -/
def normalize_path_windows (s : PStr) : PStr :=
  if uncMarker <+: s then
    let stripped := s.drop uncMarker.length
    let normalized := '\\' :: '\\' :: stripped
    if byteLen normalized > LONG_PATH_THRESHOLD then s else normalized
  else if extMarker <+: s then
    let stripped := s.drop extMarker.length
    if byteLen stripped > LONG_PATH_THRESHOLD then s else stripped
  else s

/-! Byte-level model of `path_to_string` (src/lib.rs lines 51-55): lossy
UTF-8 decoding of the operating-system path bytes. -/

/-- The Unicode replacement character emitted for invalid byte
sequences. -/
def repChar : Char := Char.ofNat 0xFFFD

/-- Whether a byte is a UTF-8 continuation byte. -/
def isCont (b : Nat) : Bool :=
  decide (0x80 ≤ b) && decide (b ≤ 0xBF)

/-- The admissible second byte of a multi-byte UTF-8 sequence, which
depends on the lead byte (excluding overlong forms and surrogates). -/
def validSnd (b c : Nat) : Bool :=
  if b = 0xE0 then decide (0xA0 ≤ c) && decide (c ≤ 0xBF)
  else if b = 0xED then decide (0x80 ≤ c) && decide (c ≤ 0x9F)
  else if b = 0xF0 then decide (0x90 ≤ c) && decide (c ≤ 0xBF)
  else if b = 0xF4 then decide (0x80 ≤ c) && decide (c ≤ 0x8F)
  else isCont c

/-- One step of UTF-8 decoding: given the first byte and the remaining
bytes, either the decoded character with the bytes after its sequence, or
the bytes at which decoding resumes after the maximal invalid subpart. -/
def utf8Step (b : Nat) (rest : List Nat) : (Char × List Nat) ⊕ List Nat :=
  if b < 0x80 then .inl (Char.ofNat b, rest)
  else if decide (0xC2 ≤ b) && decide (b ≤ 0xDF) then
    match rest with
    | [] => .inr []
    | c₁ :: r₁ =>
      if isCont c₁ then
        .inl (Char.ofNat ((b - 0xC0) * 0x40 + (c₁ - 0x80)), r₁)
      else .inr rest
  else if decide (0xE0 ≤ b) && decide (b ≤ 0xEF) then
    match rest with
    | [] => .inr []
    | c₁ :: r₁ =>
      if validSnd b c₁ then
        match r₁ with
        | [] => .inr []
        | c₂ :: r₂ =>
          if isCont c₂ then
            .inl (Char.ofNat ((b - 0xE0) * 0x1000 + (c₁ - 0x80) * 0x40 +
              (c₂ - 0x80)), r₂)
          else .inr r₁
      else .inr rest
  else if decide (0xF0 ≤ b) && decide (b ≤ 0xF4) then
    match rest with
    | [] => .inr []
    | c₁ :: r₁ =>
      if validSnd b c₁ then
        match r₁ with
        | [] => .inr []
        | c₂ :: r₂ =>
          if isCont c₂ then
            match r₂ with
            | [] => .inr []
            | c₃ :: r₃ =>
              if isCont c₃ then
                .inl (Char.ofNat ((b - 0xF0) * 0x40000 +
                  (c₁ - 0x80) * 0x1000 + (c₂ - 0x80) * 0x40 +
                  (c₃ - 0x80)), r₃)
              else .inr r₂
          else .inr r₁
      else .inr rest
  else .inr rest

/-- Fuel-driven loop of lossy UTF-8 decoding: decoded characters are kept,
every maximal invalid subpart becomes one replacement character. -/
def utf8LossyGo : Nat → List Nat → List Char
  | _, [] => []
  | 0, _ :: _ => []
  | fuel + 1, b :: rest =>
    match utf8Step b rest with
    | .inl (ch, r) => ch :: utf8LossyGo fuel r
    | .inr r => repChar :: utf8LossyGo fuel r

/-- Lossy UTF-8 decoding of a byte sequence, as Rust's lossy string
conversion performs it. -/
def utf8Lossy (l : List Nat) : List Char :=
  utf8LossyGo l.length l

/-- Fuel-driven loop of UTF-8 validity checking, mirroring the decoder. -/
def isValidGo : Nat → List Nat → Bool
  | _, [] => true
  | 0, _ :: _ => false
  | fuel + 1, b :: rest =>
    match utf8Step b rest with
    | .inl (_, r) => isValidGo fuel r
    | .inr _ => false

/-- Whether a byte sequence is valid UTF-8. -/
def isValidUtf8 (l : List Nat) : Bool :=
  isValidGo l.length l

/-- `path_to_string` from src/lib.rs lines 53-55 at byte level: lossy
conversion of the path bytes. -/
def path_to_string (b : List Nat) : PStr :=
  utf8Lossy b

/-- The pipeline of a path-returning method at byte level: extraction,
the core operation producing operating-system path bytes, then
normalization followed by `path_to_string` on the success value. -/
def pyOpBytes (core : PStr → Except JailError (List Nat))
    (normB : List Nat → List Nat) (obj : PyObj) : Except PyErr PStr :=
  match extract_path obj with
  | .error e => .error e
  | .ok s =>
    match core s with
    | .ok bs => .ok (path_to_string (normB bs))
    | .error e => .error (to_py_err e)

/-- The `root` getter and the dunder str and repr bodies at byte level
(src/lib.rs lines 140-144 and 203-214): normalization of the stored root
followed by lossy conversion. -/
def pyRootBytes (normB : List Nat → List Nat) (rootBytes : List Nat) : PStr :=
  path_to_string (normB rootBytes)

instance {ε α : Type} [DecidableEq ε] [DecidableEq α] :
    DecidableEq (Except ε α) := fun x y =>
  match x, y with
  | .ok a, .ok b =>
    if h : a = b then .isTrue (by rw [h]) else .isFalse (by simp [h])
  | .error a, .error b =>
    if h : a = b then .isTrue (by rw [h]) else .isFalse (by simp [h])
  | .ok _, .error _ => .isFalse (by simp)
  | .error _, .ok _ => .isFalse (by simp)

/-! Helper lemmas about argument extraction. -/

/-- When an argument carries a string value, extraction validates exactly
that string. -/
lemma extract_path_strVal (obj : PyObj) (s : PStr)
    (h : strVal obj = some s) : extract_path obj = validate_path s := by
  rcases obj with s' | b | inner | _ | _
  · simp only [strVal, Option.some.injEq] at h
    subst h; rfl
  · simp [strVal] at h
  · rcases inner with s' | b | i₂ | _ | _
    · simp only [strVal, Option.some.injEq] at h
      subst h; rfl
    · simp [strVal] at h
    · simp [strVal] at h
    · simp [strVal] at h
    · simp [strVal] at h
  · simp [strVal] at h
  · simp [strVal] at h

/-- When an argument carries no string value, extraction raises the
TypeError. -/
lemma extract_path_notConvertible (obj : PyObj)
    (h : isStrConvertible obj = false) : extract_path obj = .error typeErr := by
  rcases obj with s' | b | inner | _ | _
  · simp [isStrConvertible, strVal] at h
  · rfl
  · rcases inner with s' | b | i₂ | _ | _
    · simp [isStrConvertible, strVal] at h
    · rfl
    · rfl
    · rfl
    · rfl
  · rfl
  · rfl

/-- A string with a null byte is rejected by validation with the null-byte
ValueError. -/
lemma validate_path_null (s : PStr) (h : hasNull s = true) :
    validate_path s = .error nullByteErr := by
  simp [validate_path, h]

/-- C2: every operation (construction, join, contains, relative, and the
stateless join in either argument position) rejects a path argument
containing an embedded null byte with the null-byte ValueError, whatever
the core resolver would do — so the rejection happens before any
filesystem access and before any call into the core. -/
theorem null_byte_always_rejected
    (core₁ : PStr → Except JailError PStr)
    (coreN : PStr → Except JailError (List PStr))
    (core₂ : PStr → PStr → Except JailError PStr)
    (norm : PStr → PStr) (obj robj pobj : PyObj) (s r : PStr)
    (hs : strVal obj = some s) (hn : hasNull s = true)
    (hr : extract_path robj = .ok r) :
    pyOp1 core₁ norm obj = .error nullByteErr ∧
    pyOpNew coreN obj = .error nullByteErr ∧
    pyOp2 core₂ norm obj pobj = .error nullByteErr ∧
    pyOp2 core₂ norm robj obj = .error nullByteErr ∧
    nullByteErr.kind = PyKind.valueError := by
  have he : extract_path obj = .error nullByteErr := by
    rw [extract_path_strVal obj s hs]
    exact validate_path_null s hn
  refine ⟨?_, ?_, ?_, ?_, rfl⟩
  · simp [pyOp1, he]
  · simp [pyOpNew, he]
  · simp [pyOp2, he]
  · simp [pyOp2, hr, he]

/-- Witness for C2 at a concrete null-carrying argument. -/
theorem null_byte_always_rejected_witness :
    strVal (.pyStr ['a', Char.ofNat 0, 'b']) = some ['a', Char.ofNat 0, 'b'] ∧
    hasNull ['a', Char.ofNat 0, 'b'] = true ∧
    extract_path (.pyStr ['r']) = .ok ['r'] ∧
    pyOp1 (fun s => .ok s) id (.pyStr ['a', Char.ofNat 0, 'b']) =
      .error nullByteErr := by
  refine ⟨rfl, by decide, rfl, ?_⟩
  exact (null_byte_always_rejected (fun s => .ok s) (fun s => .ok [s])
    (fun _ p => .ok p) id (.pyStr ['a', Char.ofNat 0, 'b']) (.pyStr ['r'])
    PyObj.other ['a', Char.ofNat 0, 'b'] ['r'] rfl (by decide) rfl).1

/-- C3: cosmetic normalization never influences an outcome — for any core
resolver and any input, the result of the method pipeline with an
arbitrary normalization function is exactly the result of the pipeline
with the identity normalization, with the normalization mapped over the
success value only; in particular join, contains and relative succeed or
fail, and fail with the same translated error, independently of
`normalize_path`. -/
theorem normalization_is_presentation_only
    (core : PStr → Except JailError PStr) (norm : PStr → PStr)
    (obj : PyObj) (fs : Fs) (root : List PStr) :
    pyOp1 core norm obj = Except.map norm (pyOp1 core id obj) ∧
    pyJoin fs root obj =
      Except.map normalize_path (pyOp1 (coreJoinRendered fs root) id obj) ∧
    pyContains fs root obj =
      Except.map normalize_path
        (pyOp1 (coreContainsRendered fs root) id obj) ∧
    pyRelative fs root obj =
      Except.map normalize_path
        (pyOp1 (coreRelativeRendered fs root) id obj) := by
  have h : ∀ (c : PStr → Except JailError PStr) (n : PStr → PStr),
      pyOp1 c n obj = Except.map n (pyOp1 c id obj) := by
    intro c n
    unfold pyOp1
    cases extract_path obj with
    | error e => rfl
    | ok s =>
      cases hcs : c s with
      | ok p => simp [hcs, Except.map]
      | error e => simp [hcs, Except.map]
  exact ⟨h core norm, h _ normalize_path, h _ normalize_path,
    h _ normalize_path⟩

/-- C4: the error translation maps EscapedRoot, BrokenSymlink and
InvalidPath to a ValueError and Io to an IOError, so the exception type at
the Python boundary distinguishes the hard security denials from
operational failure. -/
theorem to_py_err_kind_mapping :
    (∀ a r, (to_py_err (.escapedRoot a r)).kind = PyKind.valueError) ∧
    (∀ p, (to_py_err (.brokenSymlink p)).kind = PyKind.valueError) ∧
    (∀ m, (to_py_err (.invalidPath m)).kind = PyKind.valueError) ∧
    (∀ m, (to_py_err (.io m)).kind = PyKind.ioError) :=
  ⟨fun _ _ => rfl, fun _ => rfl, fun _ => rfl, fun _ => rfl⟩

/-- C9: an argument that is neither a str nor a PathLike whose fspath
returns a str is rejected with the TypeError by every operation, whatever
the core resolver would do (so before any filesystem access); bytes and
PathLike-returning-bytes arguments are among those rejected. -/
theorem non_path_argument_rejected
    (core₁ : PStr → Except JailError PStr)
    (coreN : PStr → Except JailError (List PStr))
    (core₂ : PStr → PStr → Except JailError PStr)
    (norm : PStr → PStr) (obj pobj : PyObj)
    (h : isStrConvertible obj = false) :
    pyOp1 core₁ norm obj = .error typeErr ∧
    pyOpNew coreN obj = .error typeErr ∧
    pyOp2 core₂ norm obj pobj = .error typeErr ∧
    (∀ b, isStrConvertible (.pyBytes b) = false) ∧
    (∀ b, isStrConvertible (.pathLike (.pyBytes b)) = false) ∧
    typeErr.kind = PyKind.typeError := by
  have he : extract_path obj = .error typeErr :=
    extract_path_notConvertible obj h
  refine ⟨?_, ?_, ?_, fun b => rfl, fun b => rfl, rfl⟩
  · simp [pyOp1, he]
  · simp [pyOpNew, he]
  · simp [pyOp2, he]

/-- Witness for C9 at a concrete bytes argument. -/
theorem non_path_argument_rejected_witness :
    isStrConvertible (.pyBytes [104, 105]) = false ∧
    pyOp1 (fun s => .ok s) id (.pyBytes [104, 105]) = .error typeErr := by
  refine ⟨by decide, ?_⟩
  exact (non_path_argument_rejected (fun s => .ok s) (fun s => .ok [s])
    (fun _ p => .ok p) id (.pyBytes [104, 105]) PyObj.other (by decide)).1

/-- C5: an absolute path argument to join fails with InvalidPath in the
core, surfacing as a ValueError at the Python boundary, for every
filesystem and every root — in particular also when the absolute path
denotes a location inside the jail root. -/
theorem join_rejects_absolute_argument (fs : Fs) (root : List PStr)
    (s : PStr) (h : isAbsPath s = true) :
    (∃ reason, coreJoin fs root s = .error (.invalidPath reason)) ∧
    (∃ m, pyJoin fs root (.pyStr s) = .error ⟨.valueError, m⟩) := by
  cases s with
  | nil => simp [isAbsPath] at h
  | cons c s' =>
    by_cases hn : hasNull (c :: s') = true
    · refine ⟨⟨"path contains null byte", ?_⟩,
        ⟨"path contains null byte (security risk)", ?_⟩⟩
      · simp [coreJoin, hn]
      · simp [pyJoin, pyOp1, extract_path, validate_path, hn, nullByteErr]
    · rw [Bool.not_eq_true] at hn
      refine ⟨⟨"path must be relative", ?_⟩,
        ⟨"invalid path: " ++ "path must be relative", ?_⟩⟩
      · simp [coreJoin, hn, h]
      · simp [pyJoin, pyOp1, extract_path, validate_path, hn,
          coreJoinRendered, coreJoin, h, to_py_err, Except.map]

/-- Witness for C5 at a concrete absolute path that lies inside the jail
root. -/
theorem join_rejects_absolute_argument_witness :
    isAbsPath ['/', 'j', 'a', 'i', 'l', '/', 'a'] = true ∧
    (∃ m, pyJoin [([['j', 'a', 'i', 'l']], Entry.dir)] [['j', 'a', 'i', 'l']]
      (.pyStr ['/', 'j', 'a', 'i', 'l', '/', 'a']) = .error ⟨.valueError, m⟩) :=
  ⟨by decide,
    (join_rejects_absolute_argument [([['j', 'a', 'i', 'l']], Entry.dir)]
      [['j', 'a', 'i', 'l']] ['/', 'j', 'a', 'i', 'l', '/', 'a']
      (by decide)).2⟩

/-! Containment invariant lemmas for the core walk. -/

/-- Every successful symlink chase ends at a path below the root. -/
lemma chase_ok_below_root (fs : Fs) (root : List PStr) :
    ∀ (n : Nat) (p : List PStr) (l : Bool) (q : List PStr) (m : Nat),
      chase fs root n p l = .ok (q, m) → root <+: q := by
  intro n
  induction n with
  | zero =>
    intro p l q m h
    unfold chase at h
    split at h
    · split at h
      · simp at h
      · simp only [Except.ok.injEq, Prod.mk.injEq] at h
        obtain ⟨h1, _⟩ := h
        subst h1
        assumption
    · simp at h
  | succ n ih =>
    intro p l q m h
    unfold chase at h
    split at h
    · split at h
      · split at h
        · split at h
          · simp only [Except.ok.injEq, Prod.mk.injEq] at h
            obtain ⟨h1, _⟩ := h
            subst h1
            assumption
          · simp at h
        · exact ih _ _ _ _ h
      · simp only [Except.ok.injEq, Prod.mk.injEq] at h
        obtain ⟨h1, _⟩ := h
        subst h1
        assumption
    · simp at h

/-- Every successful walk from a path below the root ends below the
root. -/
lemma walk_ok_below_root (fs : Fs) (root : List PStr) :
    ∀ (cs resolved : List PStr) (fuel : Nat) (q : List PStr),
      root <+: resolved → walkComps fs root resolved cs fuel = .ok q →
      root <+: q := by
  intro cs
  induction cs with
  | nil =>
    intro resolved fuel q hr h
    unfold walkComps at h
    simp only [Except.ok.injEq] at h
    subst h
    exact hr
  | cons c rest ih =>
    intro resolved fuel q hr h
    unfold walkComps at h
    cases hc : chase fs root fuel (stepComp resolved c) rest.isEmpty with
    | error e => rw [hc] at h; simp at h
    | ok pr =>
      rw [hc] at h
      obtain ⟨p, fuel'⟩ := pr
      exact ih p fuel' q
        (chase_ok_below_root fs root fuel (stepComp resolved c)
          rest.isEmpty p fuel' hc) h

/-- A successful core join returns a path below the root. -/
lemma coreJoin_below_root (fs : Fs) (root : List PStr) (s : PStr)
    (p : List PStr) (h : coreJoin fs root s = .ok p) : root <+: p := by
  unfold coreJoin at h
  split at h
  · simp at h
  · split at h
    · simp at h
    · split at h
      · simp at h
      · exact walk_ok_below_root fs root (pathComps s) root followLimit p
          List.prefix_rfl h

/-- A successful core containment check returns a path below the root. -/
lemma coreContains_below_root (fs : Fs) (root : List PStr) (s : PStr)
    (p : List PStr) (h : coreContains fs root s = .ok p) : root <+: p := by
  unfold coreContains at h
  split at h
  · simp at h
  · split at h
    · simp at h
    · split at h
      · simp at h
      · cases hcan : canonicalize fs [] (pathComps s) with
        | error e => rw [hcan] at h; simp at h
        | ok c =>
          rw [hcan] at h
          dsimp only at h
          split at h
          · simp only [Except.ok.injEq] at h
            subst h
            assumption
          · simp at h

/-- C1: every path returned by a successful join, contains or relative is,
at the moment of return, below the jail root under component-wise
comparison: the success value is the rendering of a component sequence
that has the root's component sequence as a prefix (for relative, after
re-anchoring at the root), so no result merely shares a character prefix
with the root. -/
theorem returned_paths_descend_from_root (fs : Fs) (root : List PStr)
    (obj : PyObj) (res : PStr) :
    (pyJoin fs root obj = .ok res →
      ∃ p, root <+: p ∧ res = renderAbs p) ∧
    (pyContains fs root obj = .ok res →
      ∃ p, root <+: p ∧ res = renderAbs p) ∧
    (pyRelative fs root obj = .ok res →
      ∃ p, root <+: p ∧ res = renderRel (p.drop root.length)) := by
  refine ⟨?_, ?_, ?_⟩
  · intro h
    unfold pyJoin pyOp1 coreJoinRendered at h
    cases he : extract_path obj with
    | error e => rw [he] at h; simp at h
    | ok s =>
      rw [he] at h
      dsimp only at h
      cases hc : coreJoin fs root s with
      | error e => rw [hc] at h; simp [Except.map] at h
      | ok p =>
        rw [hc] at h
        simp only [Except.map, Except.ok.injEq] at h
        exact ⟨p, coreJoin_below_root fs root s p hc, by rw [← h]; rfl⟩
  · intro h
    unfold pyContains pyOp1 coreContainsRendered at h
    cases he : extract_path obj with
    | error e => rw [he] at h; simp at h
    | ok s =>
      rw [he] at h
      dsimp only at h
      cases hc : coreContains fs root s with
      | error e => rw [hc] at h; simp [Except.map] at h
      | ok p =>
        rw [hc] at h
        simp only [Except.map, Except.ok.injEq] at h
        exact ⟨p, coreContains_below_root fs root s p hc, by rw [← h]; rfl⟩
  · intro h
    unfold pyRelative pyOp1 coreRelativeRendered at h
    cases he : extract_path obj with
    | error e => rw [he] at h; simp at h
    | ok s =>
      rw [he] at h
      dsimp only at h
      cases hr : coreRelative fs root s with
      | error e => rw [hr] at h; simp [Except.map] at h
      | ok r =>
        rw [hr] at h
        simp only [Except.map, Except.ok.injEq] at h
        unfold coreRelative at hr
        cases hc : coreContains fs root s with
        | error e => rw [hc] at hr; simp at hr
        | ok c =>
          rw [hc] at hr
          simp only [Except.ok.injEq] at hr
          subst hr
          exact ⟨c, coreContains_below_root fs root s c hc, by rw [← h]; rfl⟩

/-- A small concrete filesystem for witnesses: a jail root directory with
one subdirectory holding one file. -/
def fsDemo : Fs :=
  [([['j', 'a', 'i', 'l']], .dir),
   ([['j', 'a', 'i', 'l'], ['a']], .dir),
   ([['j', 'a', 'i', 'l'], ['a'], ['f']], .file)]

/-- The jail root components of the witness filesystem. -/
def rootDemo : List PStr := [['j', 'a', 'i', 'l']]

/-- C6: on Windows, normalize_path rewrites an extended-length UNC path
to its conventional UNC form and strips the extended-length marker from
any other marked path, in both cases keeping the original exactly when the
converted form exceeds the 250 threshold; unmarked paths and (on
non-Windows targets) all paths are returned unchanged. -/
theorem normalize_path_windows_behavior (s rest : PStr) :
    normalize_path s = s ∧
    (s = uncMarker ++ rest →
      normalize_path_windows s =
        if byteLen ('\\' :: '\\' :: rest) > LONG_PATH_THRESHOLD then s
        else '\\' :: '\\' :: rest) ∧
    (s = extMarker ++ rest → ¬ uncMarker <+: s →
      normalize_path_windows s =
        if byteLen rest > LONG_PATH_THRESHOLD then s else rest) ∧
    (¬ extMarker <+: s → normalize_path_windows s = s) := by
  refine ⟨rfl, ?_, ?_, ?_⟩
  · intro hs
    subst hs
    unfold normalize_path_windows
    rw [if_pos (List.prefix_append uncMarker rest)]
    dsimp only
    rw [List.drop_left]
  · intro hs hnot
    subst hs
    unfold normalize_path_windows
    rw [if_neg hnot, if_pos (List.prefix_append extMarker rest)]
    dsimp only
    rw [List.drop_left]
  · intro hnot
    have hnotU : ¬ uncMarker <+: s := by
      intro hu
      have hext : extMarker <+: uncMarker := ⟨['U', 'N', 'C', '\\'], by decide⟩
      exact hnot (hext.trans hu)
    unfold normalize_path_windows
    rw [if_neg hnotU, if_neg hnot]

/-- Witness for C6 at a concrete UNC path, a concrete extended-length
drive path, and a concrete unmarked path. -/
theorem normalize_path_windows_behavior_witness :
    (normalize_path_windows (uncMarker ++ ['s', 'v']) =
      if byteLen ('\\' :: '\\' :: ['s', 'v']) > LONG_PATH_THRESHOLD then
        uncMarker ++ ['s', 'v']
      else '\\' :: '\\' :: ['s', 'v']) ∧
    (normalize_path_windows (extMarker ++ ['C', ':']) =
      if byteLen ['C', ':'] > LONG_PATH_THRESHOLD then extMarker ++ ['C', ':']
      else ['C', ':']) ∧
    normalize_path_windows ['C', ':'] = ['C', ':'] :=
  ⟨(normalize_path_windows_behavior (uncMarker ++ ['s', 'v'])
      ['s', 'v']).2.1 rfl,
   (normalize_path_windows_behavior (extMarker ++ ['C', ':'])
      ['C', ':']).2.2.1 rfl (by decide),
   (normalize_path_windows_behavior ['C', ':'] []).2.2.2 (by decide)⟩

/-- Whether an Except value is a success. -/
def exOk {ε α : Type} : Except ε α → Bool
  | .ok _ => true
  | .error _ => false

/-- C7 counterexample: with an empty filesystem, a nonexistent root and a
null-carrying path argument, the stateless join raises the null-byte
ValueError while constructing the jail and then joining raises the
construction IOError — different exception kinds at the same input, so
the claimed equivalence fails as stated. -/
theorem stateless_join_vs_two_step_differ :
    pyStatelessJoin [] (.pyStr ['/', 'x']) (.pyStr ['a', Char.ofNat 0]) =
      .error nullByteErr ∧
    pyTwoStep [] (.pyStr ['/', 'x']) (.pyStr ['a', Char.ofNat 0]) =
      .error ⟨.ioError, "No such file or directory"⟩ ∧
    nullByteErr.kind ≠ PyKind.ioError :=
  ⟨by decide, by decide, by decide⟩

/-- C7 amended: the stateless join returns exactly what constructing the
jail and then joining returns — same string on success, same exception on
failure — whenever the path argument passes extraction or the jail
construction succeeds; only when both fail do the two report errors of
different kinds (the stateless join reports the path error, the two-step
composite the construction error). -/
theorem stateless_join_matches_two_step (fs : Fs) (robj pobj : PyObj)
    (h : exOk (extract_path pobj) = true ∨ exOk (pyNew fs robj) = true) :
    pyStatelessJoin fs robj pobj = pyTwoStep fs robj pobj := by
  cases he : extract_path robj with
  | error e =>
    simp [pyStatelessJoin, pyTwoStep, pyOp2, pyNew, pyOpNew, he]
  | ok r =>
    cases hn : coreNew fs r with
    | error e =>
      have hp : ∃ p, extract_path pobj = .ok p := by
        rcases h with h | h
        · cases hep : extract_path pobj with
          | error e' => rw [hep] at h; simp [exOk] at h
          | ok p => exact ⟨p, rfl⟩
        · exfalso
          simp [pyNew, pyOpNew, he, hn, exOk] at h
      obtain ⟨p, hep⟩ := hp
      simp [pyStatelessJoin, pyTwoStep, pyOp2, pyNew, pyOpNew, he, hn, hep,
        coreStateless]
    | ok root =>
      cases hep : extract_path pobj with
      | error e' =>
        simp [pyStatelessJoin, pyTwoStep, pyOp2, pyNew, pyOpNew, pyJoin,
          pyOp1, he, hn, hep]
      | ok p =>
        simp [pyStatelessJoin, pyTwoStep, pyOp2, pyNew, pyOpNew, pyJoin,
          pyOp1, he, hn, hep, coreStateless]

/-- Witness for C1 at concrete successful join, contains and relative
calls. -/
theorem returned_paths_descend_from_root_witness :
    (∃ p, rootDemo <+: p ∧
      renderAbs [['j', 'a', 'i', 'l'], ['a'], ['f']] = renderAbs p) ∧
    (∃ p, rootDemo <+: p ∧
      renderAbs [['j', 'a', 'i', 'l'], ['a'], ['f']] = renderAbs p) ∧
    (∃ p, rootDemo <+: p ∧
      renderRel [['a']] = renderRel (p.drop rootDemo.length)) :=
  ⟨(returned_paths_descend_from_root fsDemo rootDemo (.pyStr ['a', '/', 'f'])
      (renderAbs [['j', 'a', 'i', 'l'], ['a'], ['f']])).1 (by decide),
   (returned_paths_descend_from_root fsDemo rootDemo
      (.pyStr ['/', 'j', 'a', 'i', 'l', '/', 'a', '/', 'f'])
      (renderAbs [['j', 'a', 'i', 'l'], ['a'], ['f']])).2.1 (by decide),
   (returned_paths_descend_from_root fsDemo rootDemo
      (.pyStr ['/', 'j', 'a', 'i', 'l', '/', 'a'])
      (renderRel [['a']])).2.2 (by decide)⟩

/-! Lemmas for the round-trip law: walking a plain, existing,
symlink-free path. -/

/-- A plain path component: nonempty, free of separators and null bytes,
and neither dot nor dot-dot — its own normalized form. -/
def PlainComp (c : PStr) : Prop :=
  c ≠ [] ∧ '/' ∉ c ∧ Char.ofNat 0 ∉ c ∧ c ≠ ['.'] ∧ c ≠ ['.', '.']

instance (c : PStr) : Decidable (PlainComp c) := by
  unfold PlainComp
  infer_instance

/-- Whether the filesystem holds a non-symlink entry at a path. -/
def entryOk (fs : Fs) (q : List PStr) : Bool :=
  match fsFind fs q with
  | some (.symlink _ _) => false
  | some _ => true
  | none => false

/-- Splitting never yields an empty group list. -/
lemma splitSlash_ne_nil (s : PStr) : splitSlash s ≠ [] := by
  induction s with
  | nil => simp [splitSlash]
  | cons c rest ih =>
    unfold splitSlash
    split
    · simp
    · split <;> simp

/-- Splitting a separator-free group followed by a separator peels off
that group. -/
lemma splitSlash_sep (c s : PStr) (h : '/' ∉ c) :
    splitSlash (c ++ '/' :: s) = c :: splitSlash s := by
  induction c with
  | nil => simp [splitSlash]
  | cons x c' ih =>
    have hx : ¬ x = '/' := fun hxx => h (by simp [hxx])
    have h' : '/' ∉ c' := fun hm => h (List.mem_cons_of_mem x hm)
    simp only [List.cons_append, splitSlash, hx, if_false, List.append_eq,
      ih h']

/-- Splitting a separator-free string yields that single group. -/
lemma splitSlash_no_sep (c : PStr) (h : '/' ∉ c) : splitSlash c = [c] := by
  induction c with
  | nil => simp [splitSlash]
  | cons x c' ih =>
    have hx : ¬ x = '/' := fun hxx => h (by simp [hxx])
    have h' : '/' ∉ c' := fun hm => h (List.mem_cons_of_mem x hm)
    unfold splitSlash
    rw [if_neg hx, ih h']

/-- Rendering then re-splitting a nonempty sequence of plain components
recovers exactly those components. -/
lemma pathComps_renderRel : ∀ (P : List PStr), (∀ c ∈ P, PlainComp c) →
    P ≠ [] → pathComps (renderRel P) = P := by
  intro P
  induction P with
  | nil => intro _ h; simp at h
  | cons c P' ih =>
    intro hall _
    have hc : PlainComp c := hall c (List.mem_cons_self c P')
    have hcne : ¬ c.isEmpty = true := by simp [hc.1]
    cases P' with
    | nil =>
      unfold renderRel pathComps
      rw [splitSlash_no_sep c hc.2.1]
      simp [List.filter_cons, hc.1]
    | cons c₂ P'' =>
      have hall' : ∀ x ∈ c₂ :: P'', PlainComp x := fun x hx =>
        hall x (List.mem_cons_of_mem c hx)
      unfold renderRel pathComps
      rw [splitSlash_sep c _ hc.2.1]
      rw [List.filter_cons, if_pos (by simp [hc.1])]
      have := ih hall' (by simp)
      unfold pathComps at this
      rw [this]

/-- A rendered sequence of null-free components is null-free. -/
lemma null_not_in_renderRel : ∀ (P : List PStr),
    (∀ c ∈ P, Char.ofNat 0 ∉ c) → Char.ofNat 0 ∉ renderRel P := by
  intro P
  induction P with
  | nil => intro _; simp [renderRel]
  | cons c P' ih =>
    intro hall
    cases P' with
    | nil => simpa [renderRel] using hall c (by simp)
    | cons c₂ P'' =>
      have h1 : Char.ofNat 0 ∉ c := hall c (by simp)
      have h2 : Char.ofNat 0 ∉ renderRel (c₂ :: P'') :=
        ih fun x hx => hall x (by simp [hx])
      intro hmem
      unfold renderRel at hmem
      rcases List.mem_append.mp hmem with hm | hm
      · exact h1 hm
      · rcases List.mem_cons.mp hm with hm' | hm'
        · exact absurd hm' (by decide)
        · exact h2 hm'

/-- A rendered sequence starting with a plain component is not
absolute. -/
lemma renderRel_not_abs (c : PStr) (P' : List PStr) (hc : c ≠ [])
    (hs : '/' ∉ c) : isAbsPath (renderRel (c :: P')) = false := by
  cases c with
  | nil => exact absurd rfl hc
  | cons x c'' =>
    have hx : ¬ x = '/' := fun hxx => hs (by simp [hxx])
    cases P' with
    | nil => simp [renderRel, isAbsPath, hx]
    | cons c₂ P'' => simp [renderRel, isAbsPath, List.cons_append, hx]

/-- A rendered sequence starting with a nonempty component is
nonempty. -/
lemma renderRel_ne_nil (c : PStr) (P' : List PStr) (hc : c ≠ []) :
    (renderRel (c :: P')).isEmpty = false := by
  cases c with
  | nil => exact absurd rfl hc
  | cons x c'' =>
    cases P' with
    | nil => simp [renderRel]
    | cons c₂ P'' => simp [renderRel, List.cons_append]

/-- A chase at a non-symlink existing path returns it with the budget
untouched. -/
lemma chase_of_entryOk (fs : Fs) (root : List PStr) (n : Nat)
    (p : List PStr) (l : Bool) (hr : root <+: p)
    (he : entryOk fs p = true) : chase fs root n p l = .ok (p, n) := by
  unfold entryOk at he
  cases n with
  | zero =>
    unfold chase
    rw [if_pos hr]
    cases hf : fsFind fs p with
    | none => rfl
    | some e =>
      rw [hf] at he
      cases e with
      | dir => rfl
      | file => rfl
      | symlink a t => simp at he
  | succ m =>
    unfold chase
    rw [if_pos hr]
    cases hf : fsFind fs p with
    | none => rfl
    | some e =>
      rw [hf] at he
      cases e with
      | dir => rfl
      | file => rfl
      | symlink a t => simp at he

/-- A full chase at a non-symlink existing path returns it. -/
lemma chaseFull_of_entryOk (fs : Fs) (n : Nat) (p : List PStr)
    (he : entryOk fs p = true) : chaseFull fs n p = .ok p := by
  unfold entryOk at he
  cases n with
  | zero =>
    unfold chaseFull
    cases hf : fsFind fs p with
    | none => rw [hf] at he; simp at he
    | some e =>
      rw [hf] at he
      cases e with
      | dir => rfl
      | file => rfl
      | symlink a t => simp at he
  | succ m =>
    unfold chaseFull
    cases hf : fsFind fs p with
    | none => rw [hf] at he; simp at he
    | some e =>
      rw [hf] at he
      cases e with
      | dir => rfl
      | file => rfl
      | symlink a t => simp at he

/-- Extending both sides of a component-prefix relation by the same head
keeps it. -/
lemma cons_below (a : PStr) {q l : List PStr} (h : q <+: l) :
    a :: q <+: a :: l := by
  obtain ⟨t, ht⟩ := h
  exact ⟨t, by rw [List.cons_append, ht]⟩

/-- Appending one plain component is a plain push. -/
lemma stepComp_plain (acc : List PStr) (c : PStr) (hc : PlainComp c) :
    stepComp acc c = acc ++ [c] := by
  unfold stepComp
  rw [if_neg hc.2.2.2.1, if_neg hc.2.2.2.2]

/-- Walking plain components whose every nonempty prefix exists as a
non-symlink entry appends them all. -/
lemma walk_of_plain (fs : Fs) (root : List PStr) :
    ∀ (P acc : List PStr) (fuel : Nat), (∀ x ∈ P, PlainComp x) →
      (∀ q, q <+: P → q ≠ [] → entryOk fs (root ++ (acc ++ q)) = true) →
      walkComps fs root (root ++ acc) P fuel = .ok (root ++ (acc ++ P)) := by
  intro P
  induction P with
  | nil => intro acc fuel _ _; simp [walkComps]
  | cons c P' ih =>
    intro acc fuel hall hex
    have hc : PlainComp c := hall c (by simp)
    have hstep : stepComp (root ++ acc) c = root ++ (acc ++ [c]) := by
      rw [stepComp_plain _ c hc, List.append_assoc]
    have hok : entryOk fs (root ++ (acc ++ [c])) = true :=
      hex [c] ⟨P', rfl⟩ (by simp)
    unfold walkComps
    rw [hstep, chase_of_entryOk fs root fuel _ _ (List.prefix_append root _)
      hok]
    dsimp only
    have hex' : ∀ q, q <+: P' → q ≠ [] →
        entryOk fs (root ++ ((acc ++ [c]) ++ q)) = true := by
      intro q hq hqn
      rw [List.append_assoc]
      exact hex (c :: q) (cons_below c hq) (by simp)
    have := ih (acc ++ [c]) fuel (fun x hx => hall x (by simp [hx])) hex'
    simpa [List.append_assoc] using this

/-- Canonicalizing plain components whose every nonempty prefix exists as
a non-symlink entry appends them all. -/
lemma canonicalize_plain (fs : Fs) :
    ∀ (R acc : List PStr), (∀ x ∈ R, PlainComp x) →
      (∀ q, q <+: R → q ≠ [] → entryOk fs (acc ++ q) = true) →
      canonicalize fs acc R = .ok (acc ++ R) := by
  intro R
  induction R with
  | nil => intro acc _ _; simp [canonicalize]
  | cons c R' ih =>
    intro acc hall hex
    have hc : PlainComp c := hall c (by simp)
    have hok : entryOk fs (acc ++ [c]) = true := hex [c] ⟨R', rfl⟩ (by simp)
    unfold canonicalize
    rw [stepComp_plain acc c hc,
      chaseFull_of_entryOk fs followLimit (acc ++ [c]) hok]
    dsimp only
    have hex' : ∀ q, q <+: R' → q ≠ [] →
        entryOk fs ((acc ++ [c]) ++ q) = true := by
      intro q hq hqn
      rw [List.append_assoc]
      exact hex (c :: q) (cons_below c hq) (by simp)
    have := ih (acc ++ [c]) (fun x hx => hall x (by simp [hx])) hex'
    simpa [List.append_assoc] using this

/-- The leading slash of an absolute path contributes no component. -/
lemma pathComps_cons_slash (s : PStr) :
    pathComps ('/' :: s) = pathComps s := by
  simp [pathComps, splitSlash, List.filter_cons]

/-- The core join of a rendered plain, existing, symlink-free relative
path appends its components to the root. -/
lemma coreJoin_plain (fs : Fs) (root : List PStr) (c : PStr)
    (P' : List PStr) (hall : ∀ x ∈ c :: P', PlainComp x)
    (hex : ∀ q, q <+: c :: P' → q ≠ [] → entryOk fs (root ++ q) = true) :
    coreJoin fs root (renderRel (c :: P')) = .ok (root ++ (c :: P')) := by
  have hc : PlainComp c := hall c (by simp)
  have h1 : (renderRel (c :: P')).isEmpty = false := renderRel_ne_nil c P' hc.1
  have h2 : hasNull (renderRel (c :: P')) = false := by
    have hnul := null_not_in_renderRel (c :: P')
      (fun x hx => (hall x hx).2.2.1)
    simp [hasNull, hnul]
  have h3 : isAbsPath (renderRel (c :: P')) = false :=
    renderRel_not_abs c P' hc.1 hc.2.1
  have h4 : pathComps (renderRel (c :: P')) = c :: P' :=
    pathComps_renderRel (c :: P') hall (by simp)
  unfold coreJoin
  rw [h1, h2, h3, h4]
  simp only [Bool.false_eq_true, if_false]
  have hw := walk_of_plain fs root (c :: P') [] followLimit hall
    (fun q hq hqn => hex q hq hqn)
  simpa using hw

/-- The core containment check of a rendered plain, existing,
symlink-free absolute path below the root accepts it unchanged. -/
lemma coreContains_plain (fs : Fs) (root P : List PStr)
    (hall : ∀ x ∈ root ++ P, PlainComp x) (hne : P ≠ [])
    (hex : ∀ q, q <+: root ++ P → q ≠ [] → entryOk fs q = true) :
    coreContains fs root (renderAbs (root ++ P)) = .ok (root ++ P) := by
  have hrpne : root ++ P ≠ [] := by
    intro hcontra
    exact hne (List.append_eq_nil.mp hcontra).2
  have h2 : hasNull ('/' :: renderRel (root ++ P)) = false := by
    have hnul := null_not_in_renderRel (root ++ P)
      (fun x hx => (hall x hx).2.2.1)
    have hch : ¬ Char.ofNat 0 = '/' := by decide
    simp [hasNull, hnul, hch]
  have h4 : pathComps ('/' :: renderRel (root ++ P)) = root ++ P := by
    rw [pathComps_cons_slash]
    exact pathComps_renderRel (root ++ P) hall hrpne
  unfold renderAbs coreContains
  rw [h2, h4]
  simp only [List.isEmpty_cons, Bool.false_eq_true, if_false]
  have h3 : isAbsPath ('/' :: renderRel (root ++ P)) = true := rfl
  rw [h3]
  simp only [Bool.not_true, Bool.false_eq_true, if_false]
  rw [canonicalize_plain fs (root ++ P) []
    (fun x hx => hall x hx) (fun q hq hqn => hex q hq hqn)]
  dsimp only
  simp only [List.nil_append]
  rw [if_pos (List.prefix_append root P)]

/-- C8 (round-trip law): for a nonempty relative path of plain components
whose target exists and whose resolution meets no symlink, join returns
the root extended by exactly those components, and relative of that result
returns the original rendered relative path (its own normalized form). -/
theorem join_relative_round_trip (fs : Fs) (root P : List PStr)
    (hallroot : ∀ c ∈ root, PlainComp c)
    (hallP : ∀ c ∈ P, PlainComp c)
    (hne : P ≠ [])
    (hex : ∀ k, k < (root ++ P).length →
      entryOk fs ((root ++ P).take (k + 1)) = true) :
    pyJoin fs root (.pyStr (renderRel P)) = .ok (renderAbs (root ++ P)) ∧
    pyRelative fs root (.pyStr (renderAbs (root ++ P))) =
      .ok (renderRel P) := by
  have hall : ∀ x ∈ root ++ P, PlainComp x := by
    intro x hx
    rcases List.mem_append.mp hx with hx | hx
    · exact hallroot x hx
    · exact hallP x hx
  have hex' : ∀ q, q <+: root ++ P → q ≠ [] → entryOk fs q = true := by
    intro q hq hqn
    have hlen : q.length ≤ (root ++ P).length := hq.length_le
    have hq' : q = (root ++ P).take q.length := List.prefix_iff_eq_take.mp hq
    cases hql : q.length with
    | zero =>
      cases q with
      | nil => exact absurd rfl hqn
      | cons a b => simp at hql
    | succ k =>
      rw [hq', hql]
      exact hex k (by omega)
  obtain ⟨c, P', hP⟩ : ∃ c P', P = c :: P' := by
    cases P with
    | nil => exact absurd rfl hne
    | cons c P' => exact ⟨c, P', rfl⟩
  subst hP
  constructor
  · have hnul := null_not_in_renderRel (c :: P')
      (fun x hx => (hallP x hx).2.2.1)
    have hextr : extract_path (.pyStr (renderRel (c :: P'))) =
        .ok (renderRel (c :: P')) := by
      show validate_path (renderRel (c :: P')) = .ok (renderRel (c :: P'))
      unfold validate_path
      rw [if_neg (by simp [hasNull, hnul])]
    unfold pyJoin pyOp1 coreJoinRendered
    rw [hextr]
    dsimp only
    rw [coreJoin_plain fs root c P' hallP
      (fun q hq hqn => hex' (root ++ q)
        (by obtain ⟨t, ht⟩ := hq
            exact ⟨t, by rw [List.append_assoc, ht]⟩)
        (by simp [hqn]))]
    rfl
  · have hnulA := null_not_in_renderRel (root ++ c :: P')
      (fun x hx => (hall x hx).2.2.1)
    have hch : ¬ Char.ofNat 0 = '/' := by decide
    have hextr2 : extract_path (.pyStr (renderAbs (root ++ c :: P'))) =
        .ok (renderAbs (root ++ c :: P')) := by
      show validate_path (renderAbs (root ++ c :: P')) =
        .ok (renderAbs (root ++ c :: P'))
      unfold validate_path renderAbs
      rw [if_neg (by simp [hasNull, hnulA, hch])]
    unfold pyRelative pyOp1 coreRelativeRendered coreRelative
    rw [hextr2]
    dsimp only
    rw [coreContains_plain fs root (c :: P') hall (by simp) hex']
    dsimp only [Except.map]
    rw [List.drop_left]
    rfl

/-- Witness for C8 at a concrete two-component path in the witness
filesystem. -/
theorem join_relative_round_trip_witness :
    pyJoin fsDemo rootDemo (.pyStr (renderRel [['a'], ['f']])) =
      .ok (renderAbs (rootDemo ++ [['a'], ['f']])) ∧
    pyRelative fsDemo rootDemo
        (.pyStr (renderAbs (rootDemo ++ [['a'], ['f']]))) =
      .ok (renderRel [['a'], ['f']]) :=
  join_relative_round_trip fsDemo rootDemo [['a'], ['f']]
    (by decide) (by decide) (by decide) (by decide)

/-! Lemmas about lossy UTF-8 decoding. -/

/-- A decoding step consumes at least as much input as it leaves on
success. -/
lemma utf8Step_inl_len (b : Nat) (rest : List Nat) (ch : Char)
    (r : List Nat) (h : utf8Step b rest = .inl (ch, r)) :
    r.length ≤ rest.length := by
  unfold utf8Step at h
  repeat' split at h
  all_goals simp_all
  all_goals omega

/-- A decoding step consumes at least as much input as it leaves on
failure. -/
lemma utf8Step_inr_len (b : Nat) (rest r : List Nat)
    (h : utf8Step b rest = .inr r) : r.length ≤ rest.length := by
  unfold utf8Step at h
  repeat' split at h
  all_goals simp_all
  all_goals omega

/-- An invalid byte sequence always decodes to a string containing the
replacement character. -/
lemma go_invalid : ∀ (fuel : Nat) (l : List Nat), l.length ≤ fuel →
    isValidGo fuel l = false → repChar ∈ utf8LossyGo fuel l := by
  intro fuel
  induction fuel with
  | zero =>
    intro l hl hv
    cases l with
    | nil => simp [isValidGo] at hv
    | cons b rest => simp at hl
  | succ n ih =>
    intro l hl hv
    cases l with
    | nil => simp [isValidGo] at hv
    | cons b rest =>
      unfold isValidGo at hv
      unfold utf8LossyGo
      cases hs : utf8Step b rest with
      | inl pr =>
        rw [hs] at hv
        obtain ⟨ch, r⟩ := pr
        dsimp only at hv ⊢
        refine List.mem_cons_of_mem _ (ih r ?_ hv)
        have hlen := utf8Step_inl_len b rest ch r hs
        simp at hl
        omega
      | inr r =>
        simp

/-- The demonstration core used by the byte-level witness: it resolves
every input to a fixed byte path containing an invalid UTF-8 byte. -/
def coreDemo : PStr → Except JailError (List Nat) :=
  fun _ => .ok [0x61, 0xFF]

/-- C10: every path-valued success crossing the Python boundary is the
lossy UTF-8 decoding of the (normalized) resolved path bytes — the root
getter and the dunder str and repr directly so, the path methods through
the shared pipeline — any invalid byte sequence decodes to a string
containing the replacement character, and a concrete invalid byte decodes
to exactly the replacement character, so the returned string can differ
from the actual path that was verified. -/
theorem boundary_strings_lossy_decoded
    (core : PStr → Except JailError (List Nat))
    (normB : List Nat → List Nat) (obj : PyObj) (res : PStr)
    (bs : List Nat) :
    (pyOpBytes core normB obj = .ok res →
      ∃ s b, extract_path obj = .ok s ∧ core s = .ok b ∧
        res = utf8Lossy (normB b)) ∧
    pyRootBytes normB bs = utf8Lossy (normB bs) ∧
    (isValidUtf8 bs = false → repChar ∈ utf8Lossy bs) ∧
    utf8Lossy [0xFF] = [repChar] := by
  refine ⟨?_, rfl, ?_, by decide⟩
  · intro h
    unfold pyOpBytes at h
    cases he : extract_path obj with
    | error e => rw [he] at h; simp at h
    | ok s =>
      rw [he] at h
      dsimp only at h
      cases hc : core s with
      | error e => rw [hc] at h; simp at h
      | ok b =>
        rw [hc] at h
        dsimp only at h
        simp only [Except.ok.injEq] at h
        exact ⟨s, b, rfl, hc, h.symm⟩
  · intro hv
    exact go_invalid bs.length bs le_rfl hv

/-- Witness for C10 at a concrete operation resolving to bytes containing
an invalid UTF-8 byte. -/
theorem boundary_strings_lossy_decoded_witness :
    (∃ s b, extract_path (.pyStr ['a']) = .ok s ∧ coreDemo s = .ok b ∧
      path_to_string [0x61, 0xFF] = utf8Lossy (id b)) ∧
    repChar ∈ utf8Lossy [0xFF] :=
  ⟨(boundary_strings_lossy_decoded coreDemo id (.pyStr ['a'])
      (path_to_string [0x61, 0xFF]) [0xFF]).1 (by decide),
   (boundary_strings_lossy_decoded coreDemo id (.pyStr ['a'])
      (path_to_string [0x61, 0xFF]) [0xFF]).2.2.1 (by decide)⟩

/-- Witness for the amended C7 at a concrete existing root and valid
path argument. -/
theorem stateless_join_matches_two_step_witness :
    exOk (extract_path (.pyStr ['a'])) = true ∧
    pyStatelessJoin fsDemo (.pyStr ['/', 'j', 'a', 'i', 'l'])
        (.pyStr ['a']) =
      pyTwoStep fsDemo (.pyStr ['/', 'j', 'a', 'i', 'l']) (.pyStr ['a']) :=
  ⟨by decide,
   stateless_join_matches_two_step fsDemo (.pyStr ['/', 'j', 'a', 'i', 'l'])
     (.pyStr ['a']) (Or.inl (by decide))⟩

end PathJail
